import Mathlib

/-!
Verification of the two scripts in `psychopy/psychopy-demo`:

* `make_experiment.py` — the Schedule Generator: reads a subject id from
  `argv[1]`, seeds numpy's global pseudo-random generator with it, permutes
  the fixed stimulus list `['Sam', 'Kirsten', 'Ari']`, zips the permuted
  labels positionally with the fixed onsets `[4.0, 8.0, 10.0]`, and writes
  the result as a CSV file `trials_subject-{subject}.csv` with header
  `stimuli,onsets`.

* `psychopy_demo.py` — the Presentation Loop: reads the schedule CSV,
  opens a log file and a fullscreen window, busy-polls the keyboard until
  the trigger key `equal` arrives, then for each trial busy-waits drawing
  a fixation cross until the trial's onset and busy-waits drawing the
  trial's label text until onset plus a fixed 1.5 s duration.

The numpy random generator, pandas, and the psychopy windowing/event layer
are external black boxes; they are modelled by their documented contracts
(an abstract seeded state with a bounded random-draw function, CSV row
serialization, an effect trace, and a stream of keyboard poll results).
Wall-clock readings are modelled as a nondecreasing sequence of rational
sample values, one per loop-condition check; machine floats never leave
the set of exactly representable constants used by the scripts
(4.0, 8.0, 10.0, 1.5), so rationals model them exactly.
-/

/-- The Python exception classes relevant to these scripts. `int()` on a
non-numeric string raises `ValueError`, indexing `argv` out of range raises
`IndexError`, and `np.random.seed` on an out-of-range seed raises
`ValueError`. `argumentError` stands for Python's `argparse.ArgumentError`,
which no code path of this repository raises; it is included only so that
the spec's claim "fails with ArgumentError" can be stated and compared
against what the code actually raises. -/
inductive PyErr where
  | indexError
  | valueError
  | argumentError
deriving DecidableEq

/-- Digit string to the natural number it denotes, provided it is nonempty
and all digits (the core of Python's `int(str)`). -/
def digitsNat (cs : List Char) : Option Nat :=
  if cs ≠ [] ∧ cs.all Char.isDigit then
    some (cs.foldl (fun a c => a * 10 + (c.toNat - 48)) 0)
  else
    none

/-- Leading and trailing whitespace removed, as Python's `int(str)` does
before parsing. -/
def trimChars (cs : List Char) : List Char :=
  ((cs.dropWhile Char.isWhitespace).reverse.dropWhile Char.isWhitespace).reverse

/-- Signed integer literal parsing on the trimmed character list. -/
def pyIntAux : List Char → Option Int
  | [] => none
  | '-' :: rest => (digitsNat rest).map (fun n => -(n : Int))
  | '+' :: rest => (digitsNat rest).map (fun n => (n : Int))
  | cs => (digitsNat cs).map (fun n => (n : Int))

/-- Model of Python's `int(s)` on a string: strip surrounding whitespace,
allow one leading sign, then require a nonempty run of decimal digits;
any other shape raises `ValueError`, modelled as `none`. -/
def pyInt (s : String) : Option Int :=
  pyIntAux (trimChars s.data)

/-- `subject = int(argv[1])` from `make_experiment.py` line 5 (identical in
`psychopy_demo.py` line 6): a missing argument is an `IndexError`, a
non-integer one a `ValueError`. -/
def parseSubject (argv : List String) : Except PyErr Int :=
  match argv[1]? with
  | none => Except.error PyErr.indexError
  | some a =>
    match pyInt a with
    | none => Except.error PyErr.valueError
    | some n => Except.ok n

/-- `stimuli = ['Sam', 'Kirsten', 'Ari']` (`make_experiment.py` line 7). -/
def stimuli : List String := ["Sam", "Kirsten", "Ari"]

/-- `onsets = [4.0, 8.0, 10.0]` (`make_experiment.py` line 8), as exact
rationals. -/
def onsets : List ℚ := [4, 8, 10]

/-- The same three onset constants as pandas serializes them into the CSV. -/
def onsetStrings : List String := ["4.0", "8.0", "10.0"]

/-- `np.random.seed(subject)` (`make_experiment.py` line 10). Modelled from
the spec: numpy's generator is an out-of-scope black box, abstracted as a
state type `σ` with a seeding function; legacy numpy seeding accepts a
non-negative integer below `2^32` and raises `ValueError` otherwise. -/
def npSeed {σ : Type} (sf : Nat → σ) (n : Int) : Except PyErr σ :=
  if 0 ≤ n ∧ n < 2 ^ 32 then Except.ok (sf n.toNat) else Except.error PyErr.valueError

/-- Fisher–Yates-style shuffle driven by an abstract random source
`rb : σ → Nat → Nat × σ` (a draw bounded by reduction mod the requested
range, matching the contract of numpy's internal bounded draw): repeatedly
draw an index into the remaining list and emit that element. The fuel
argument equals the list length at every call, making the recursion
structural. -/
def npShuffleAux {σ α : Type} (rb : σ → Nat → Nat × σ) : Nat → List α → σ → List α × σ
  | 0, _, s => ([], s)
  | _ + 1, [], s => ([], s)
  | fuel + 1, a :: t, s =>
    let p := rb s (t.length + 1)
    let j := p.1 % (t.length + 1)
    let rest := (a :: t).eraseIdx j
    let next := npShuffleAux rb fuel rest p.2
    ((a :: t).getD j a :: next.1, next.2)

/-- `np.random.permutation(stimuli)` (`make_experiment.py` line 11).
Modelled from the spec: numpy's permutation routine is an out-of-scope
black box; it returns a shuffled copy of its input, driven entirely by the
seeded generator state. -/
def npPermutation {σ α : Type} (rb : σ → Nat → Nat × σ) (l : List α) (s : σ) : List α :=
  (npShuffleAux rb l.length l s).1

/-- `f'trials_subject-{subject}.csv'` (`make_experiment.py` line 15). -/
def scheduleFileName (subject : Int) : String :=
  "trials_subject-" ++ toString subject ++ ".csv"

/-- The rows of the DataFrame `{'stimuli': trial_order, 'onsets': onsets}`
(`make_experiment.py` lines 13–14): permuted labels zipped positionally
with the fixed onsets. -/
def expRows (order : List String) : List (String × ℚ) :=
  order.zip onsets

/-- The lines of the CSV written by `exp_df.to_csv(..., index=False)`
(`make_experiment.py` line 15): one header line `stimuli,onsets`, then one
`label,onset` line per row, the onsets serialized as `4.0`, `8.0`, `10.0`. -/
def csvLines (order : List String) : List String :=
  "stimuli,onsets" :: (order.zip onsetStrings).map (fun p => p.1 ++ "," ++ p.2)

/-- The whole of `make_experiment.py` as a function from the command-line
argument vector to the written file (name and lines), or the exception
aborting the run. `_g` is the ambient state of numpy's global generator
when the process starts; `np.random.seed(subject)` on line 10 overwrites
it before any draw, which is why the body never consults it. -/
def makeExperimentMain {σ : Type} (sf : Nat → σ) (rb : σ → Nat → Nat × σ) (_g : σ)
    (argv : List String) : Except PyErr (String × List String) :=
  match parseSubject argv with
  | Except.error e => Except.error e
  | Except.ok subject =>
    match npSeed sf subject with
    | Except.error e => Except.error e
    | Except.ok s0 =>
      Except.ok (scheduleFileName subject, csvLines (npPermutation rb stimuli s0))

/-- A degenerate but legitimate instance of the abstract random source,
used to evaluate the model on concrete inputs: seeding ignores the seed
and every draw returns 0 (so the shuffle is the identity permutation). -/
def constSeed : Nat → Unit := fun _ => ()

/-- Draw function of the degenerate random source: always 0. -/
def constRand : Unit → Nat → Nat × Unit := fun s _ => (0, s)

/-- The observable side effects of the straight-line prefix of
`psychopy_demo.py` (lines 7–23), in program order: the `print`, the
schedule read, the log-file open, the start-message log write, the window
creation, and the instruction text draw and flip. -/
inductive Effect where
  | printMsg (s : String)
  | readCsv (name : String)
  | openLogFile (name : String)
  | logWrite (s : String)
  | openWindow (w h : Nat)
  | drawText (s : String)
  | winFlip
deriving DecidableEq

/-- `f'log_subject-{subject}.txt'` (`psychopy_demo.py` line 14). -/
def logFileName (subject : Int) : String :=
  "log_subject-" ++ toString subject ++ ".txt"

/-- `start_message = "LFGGG!!!"` (`psychopy_demo.py` line 16). -/
def startMessage : String := "LFGGG!!!"

/-- The instruction stimulus text (`psychopy_demo.py` line 21). -/
def instructionsText : String := "Send me a trigger!"

/-- The straight-line prefix of `psychopy_demo.py` (lines 7–23) up to the
wait-for-trigger loop, as a function of the file system `fs` (mapping a
file name to the schedule it holds, if any) and the subject id. Returns
the effect trace the run performs and the loaded trials, `none` when
`pd.read_csv` (line 9) raises because the schedule file is missing — in
that case the process aborts and nothing after line 9 runs, in particular
`visual.Window` (line 19) is never reached. -/
def demoSetup (fs : String → Option (List (String × ℚ))) (subject : Int) :
    List Effect × Option (List (String × ℚ)) :=
  match fs (scheduleFileName subject) with
  | none =>
    ([Effect.printMsg ("Running subject " ++ toString subject),
      Effect.readCsv (scheduleFileName subject)], none)
  | some trials =>
    ([Effect.printMsg ("Running subject " ++ toString subject),
      Effect.readCsv (scheduleFileName subject),
      Effect.openLogFile (logFileName subject),
      Effect.logWrite startMessage,
      Effect.openWindow 1280 720,
      Effect.drawText instructionsText,
      Effect.winFlip], some trials)

/-- The wait-for-trigger loop of `psychopy_demo.py` (lines 25–29): given
the successive results of `event.getKeys()` (one key list per loop
iteration), return the iteration index at which the loop exits — the first
poll whose keys contain `'equal'` — or `none` when the given stream of
polls never delivers it, in which case the loop is still spinning after
consuming them all. -/
def waitForTrigger : List (List String) → Option Nat
  | [] => none
  | ks :: rest =>
    if "equal" ∈ ks then some 0 else (waitForTrigger rest).map (· + 1)

/-- Control position inside the trial loop of `psychopy_demo.py`
(lines 39–51): which trial the loop is on, and whether it has left that
trial's fixation `while` (line 44) for its stimulus `while` (line 48). -/
structure LoopState where
  idx : Nat
  inStim : Bool
deriving DecidableEq

/-- A draw performed by one iteration of a wait loop: the fixation cross
(`fixation.draw()`, line 45) or the trial's label text (`stimulus.draw()`,
line 49), tagged with the trial index. -/
inductive DrawEv where
  | fix (i : Nat)
  | stim (i : Nat) (label : String)
deriving DecidableEq

/-- Trial index an event belongs to. -/
def trialOf : DrawEv → Nat
  | DrawEv.fix i => i
  | DrawEv.stim i _ => i

/-- Onset of trial `i` of a schedule, when the schedule has an `i`-th row. -/
def onsetAt (trials : List (String × ℚ)) (i : Nat) : Option ℚ :=
  (trials[i]?).map Prod.snd

/-- Label of trial `i` of a schedule, when the schedule has an `i`-th row. -/
def labelAt (trials : List (String × ℚ)) (i : Nat) : Option String :=
  (trials[i]?).map Prod.fst

/-- `stimulus_duration = 1.5` (`psychopy_demo.py` line 37). -/
def stimulusDuration : ℚ := 3 / 2

/-- One loop-condition check of the trial loop of `psychopy_demo.py`
(lines 39–51) at elapsed clock reading `t` (the value of
`time() - run_start` at that check). In the fixation `while` (line 44):
if `t < onset` draw the fixation and stay, otherwise fall through to the
stimulus `while`. In the stimulus `while` (line 48): if
`t < onset + stimulus_duration` draw the trial's label and stay, otherwise
move on to the next trial's fixation wait. Past the last trial the loop is
done and nothing further is drawn. -/
def stepTrial (trials : List (String × ℚ)) (s : LoopState) (t : ℚ) :
    LoopState × Option DrawEv :=
  match trials[s.idx]? with
  | none => (s, none)
  | some (label, onset) =>
    if s.inStim then
      if t < onset + stimulusDuration then (s, some (DrawEv.stim s.idx label))
      else (⟨s.idx + 1, false⟩, none)
    else
      if t < onset then (s, some (DrawEv.fix s.idx))
      else (⟨s.idx, true⟩, none)

/-- The trial loop run over a finite sequence of clock readings, one per
loop-condition check, collecting every draw together with the reading that
admitted it. -/
def runTrials (trials : List (String × ℚ)) : LoopState → List ℚ → List (ℚ × DrawEv)
  | _, [] => []
  | s, t :: ts =>
    match stepTrial trials s t with
    | (s2, none) => runTrials trials s2 ts
    | (s2, some e) => (t, e) :: runTrials trials s2 ts

/-- The trial loop starts at trial 0, in the fixation wait. -/
def initState : LoopState := ⟨0, false⟩

/-- The timing discipline one recorded draw obeys: a fixation draw for
trial `i` happens strictly before `onset_i`; a stimulus draw for trial `i`
happens in the window `[onset_i, onset_i + 1.5)` and shows that trial's
label; and any draw belonging to trial `i` happens no earlier than
`onset_j + 1.5` for every earlier trial `j` — the loop does not move past
a trial before its stimulus window has elapsed. -/
def evSpec (trials : List (String × ℚ)) (p : ℚ × DrawEv) : Prop :=
  (∀ i, p.2 = DrawEv.fix i → ∃ o, onsetAt trials i = some o ∧ p.1 < o) ∧
  (∀ i lab, p.2 = DrawEv.stim i lab →
    ∃ o, onsetAt trials i = some o ∧ o ≤ p.1 ∧ p.1 < o + stimulusDuration ∧
      labelAt trials i = some lab) ∧
  (∀ j o, j < trialOf p.2 → onsetAt trials j = some o → o + stimulusDuration ≤ p.1)

/-- Selecting the `j`-th element and the remainder of a list is a
permutation of the list. -/
theorem getD_cons_eraseIdx_perm {α : Type} :
    ∀ (l : List α) (j : Nat) (d : α), j < l.length →
      List.Perm (l.getD j d :: l.eraseIdx j) l
  | [], j, _, h => by simp at h
  | _ :: _, 0, _, _ => by simp
  | a :: t, j + 1, d, h => by
    have ih := getD_cons_eraseIdx_perm t j d (by simpa using h)
    simpa using (List.Perm.swap a (t.getD j d) (t.eraseIdx j)).trans (List.Perm.cons a ih)

/-- The shuffle returns a permutation of its input, whatever the random
source does, as long as the fuel covers the list. -/
theorem npShuffleAux_perm {σ α : Type} (rb : σ → Nat → Nat × σ) :
    ∀ (fuel : Nat) (l : List α) (s : σ), l.length ≤ fuel →
      List.Perm (npShuffleAux rb fuel l s).1 l
  | 0, l, s, h => by
    have : l = [] := List.length_eq_zero.mp (Nat.le_zero.mp h)
    subst this
    simp [npShuffleAux]
  | _ + 1, [], s, _ => by simp [npShuffleAux]
  | fuel + 1, a :: t, s, h => by
    have hj : (rb s (t.length + 1)).1 % (t.length + 1) < (a :: t).length :=
      Nat.mod_lt _ (Nat.succ_pos _)
    have hlen : ((a :: t).eraseIdx ((rb s (t.length + 1)).1 % (t.length + 1))).length ≤ fuel := by
      rw [List.length_eraseIdx]
      simp only [hj, if_pos]
      simpa using Nat.le_of_succ_le_succ h
    have ih := npShuffleAux_perm rb fuel
      ((a :: t).eraseIdx ((rb s (t.length + 1)).1 % (t.length + 1))) (rb s (t.length + 1)).2 hlen
    have hperm := getD_cons_eraseIdx_perm (a :: t)
      ((rb s (t.length + 1)).1 % (t.length + 1)) a hj
    simp only [npShuffleAux]
    exact (List.Perm.cons _ ih).trans hperm

/-- `np.random.permutation` returns a permutation of its input. -/
theorem npPermutation_perm {σ α : Type} (rb : σ → Nat → Nat × σ) (l : List α) (s : σ) :
    List.Perm (npPermutation rb l s) l :=
  npShuffleAux_perm rb l.length l s (Nat.le_refl _)

/-- `np.random.permutation` preserves length. -/
theorem npPermutation_length {σ α : Type} (rb : σ → Nat → Nat × σ) (l : List α) (s : σ) :
    (npPermutation rb l s).length = l.length :=
  (npPermutation_perm rb l s).length_eq

/-- A list of length three is literally a three-element list. -/
theorem exists_three_of_length {α : Type} :
    ∀ (l : List α), l.length = 3 → ∃ x y z, l = [x, y, z]
  | [x, y, z], _ => ⟨x, y, z, rfl⟩

/-- C1: for every subject id, running the Schedule Generator twice with the
same command line produces byte-identical schedule files. The generator
seeds the pseudo-random generator with the subject id, discarding whatever
state `g1`/`g2` numpy's global generator held beforehand, so the written
file (name and full contents) is a deterministic function of the argument
vector alone. -/
theorem makeExperiment_deterministic {σ : Type} (sf : Nat → σ) (rb : σ → Nat → Nat × σ)
    (g1 g2 : σ) (argv : List String) :
    makeExperimentMain sf rb g1 argv = makeExperimentMain sf rb g2 argv := rfl

/-- C2: for every seeded generator state, the onsets column of the schedule
rows written by the Generator is exactly `[4.0, 8.0, 10.0]` in that row
order; only the stimulus labels are permuted, the onsets being paired with
rows by position via `zip`. -/
theorem onsets_never_permuted {σ : Type} (rb : σ → Nat → Nat × σ) (s0 : σ) :
    (expRows (npPermutation rb stimuli s0)).map Prod.snd = onsets ∧
    onsets = [4, 8, 10] := by
  refine ⟨?_, rfl⟩
  have hlen : (npPermutation rb stimuli s0).length = 3 := by
    simpa [stimuli] using npPermutation_length rb stimuli s0
  obtain ⟨x, y, z, hxyz⟩ := exists_three_of_length _ hlen
  simp [expRows, hxyz, onsets]

/-- C3: for every seeded generator state, the stimuli column of the
schedule rows is a permutation of the fixed label set
`{Sam, Kirsten, Ari}`: it contains each of the three labels exactly once
(equal multiset counts) and no other label. -/
theorem stimuli_column_is_permutation {σ : Type} (rb : σ → Nat → Nat × σ) (s0 : σ) :
    List.Perm ((expRows (npPermutation rb stimuli s0)).map Prod.fst) stimuli ∧
    ∀ lab : String,
      ((expRows (npPermutation rb stimuli s0)).map Prod.fst).count lab = stimuli.count lab := by
  have hlen : (npPermutation rb stimuli s0).length = 3 := by
    simpa [stimuli] using npPermutation_length rb stimuli s0
  have hfst : (expRows (npPermutation rb stimuli s0)).map Prod.fst =
      npPermutation rb stimuli s0 := by
    apply List.map_fst_zip
    simp [hlen, onsets]
  refine ⟨?_, fun lab => ?_⟩
  · rw [hfst]; exact npPermutation_perm rb stimuli s0
  · rw [hfst]; exact (npPermutation_perm rb stimuli s0).count_eq lab

/-- C4: whenever the Generator writes a file, the file is named
`trials_subject-{s}.csv` for the parsed subject id `s`, and consists of
exactly one header row `stimuli,onsets` followed by exactly three data
rows, each ending in one of the serialized onsets. -/
theorem schedule_file_shape {σ : Type} (sf : Nat → σ) (rb : σ → Nat → Nat × σ) (g : σ)
    (argv : List String) (fname : String) (lines : List String)
    (h : makeExperimentMain sf rb g argv = Except.ok (fname, lines)) :
    ∃ subject, parseSubject argv = Except.ok subject ∧
      fname = "trials_subject-" ++ toString subject ++ ".csv" ∧
      ∃ r1 r2 r3, lines = ["stimuli,onsets", r1, r2, r3] := by
  unfold makeExperimentMain at h
  split at h
  · simp at h
  · rename_i subject hp
    split at h
    · simp at h
    · rename_i s0 hs
      simp only [Except.ok.injEq, Prod.mk.injEq] at h
      obtain ⟨hf, hl⟩ := h
      have hlen : (npPermutation rb stimuli s0).length = 3 := by
        simpa [stimuli] using npPermutation_length rb stimuli s0
      obtain ⟨x, y, z, hxyz⟩ := exists_three_of_length _ hlen
      refine ⟨subject, hp, hf.symm, x ++ "," ++ "4.0", y ++ "," ++ "8.0", z ++ "," ++ "10.0", ?_⟩
      rw [← hl, hxyz]
      simp [csvLines, onsetStrings]

/-- Witness for C4 at a concrete input. -/
theorem schedule_file_shape_witness :
    makeExperimentMain constSeed constRand () ["make_experiment.py", "7"] =
      Except.ok ("trials_subject-7.csv",
        ["stimuli,onsets", "Sam,4.0", "Kirsten,8.0", "Ari,10.0"]) ∧
    ∃ subject, parseSubject ["make_experiment.py", "7"] = Except.ok subject ∧
      "trials_subject-7.csv" = "trials_subject-" ++ toString subject ++ ".csv" ∧
      ∃ r1 r2 r3, (["stimuli,onsets", "Sam,4.0", "Kirsten,8.0", "Ari,10.0"] : List String) =
        ["stimuli,onsets", r1, r2, r3] :=
  ⟨rfl, schedule_file_shape constSeed constRand () ["make_experiment.py", "7"]
    "trials_subject-7.csv" ["stimuli,onsets", "Sam,4.0", "Kirsten,8.0", "Ari,10.0"] rfl⟩

/-- C5 counterexample: with the subject-id argument absent the Generator
fails with `IndexError`, and with a non-integer argument it fails with
`ValueError` — in neither case with Python's `ArgumentError`, so the claim
as stated (fails with ArgumentError) is false at these inputs. -/
theorem arg_error_class_counterexample :
    makeExperimentMain constSeed constRand () ["make_experiment.py"] =
      Except.error PyErr.indexError ∧
    makeExperimentMain constSeed constRand () ["make_experiment.py", "seven"] =
      Except.error PyErr.valueError ∧
    PyErr.indexError ≠ PyErr.argumentError ∧
    PyErr.valueError ≠ PyErr.argumentError :=
  ⟨rfl, rfl, by decide, by decide⟩

/-- C5 amended: when the Schedule Generator is invoked with the subject-id
argument absent it fails with `IndexError`, and with a non-integer
argument it fails with `ValueError`; in both cases it raises rather than
writing any file. -/
theorem makeExperiment_arg_failure {σ : Type} (sf : Nat → σ) (rb : σ → Nat → Nat × σ) (g : σ)
    (argv : List String)
    (h : argv[1]? = none ∨ ∃ a, argv[1]? = some a ∧ pyInt a = none) :
    makeExperimentMain sf rb g argv =
      Except.error (if argv[1]? = none then PyErr.indexError else PyErr.valueError) ∧
    ∀ out, makeExperimentMain sf rb g argv ≠ Except.ok out := by
  have hparse : parseSubject argv =
      Except.error (if argv[1]? = none then PyErr.indexError else PyErr.valueError) := by
    rcases h with h | ⟨a, ha, hpy⟩
    · simp [parseSubject, h]
    · simp [parseSubject, ha, hpy]
  refine ⟨?_, ?_⟩
  · simp [makeExperimentMain, hparse]
  · intro out
    simp [makeExperimentMain, hparse]

/-- Witness for C5 (amended) at a concrete input. -/
theorem makeExperiment_arg_failure_witness :
    makeExperimentMain constSeed constRand () ["make_experiment.py"] =
      Except.error
        (if (["make_experiment.py"] : List String)[1]? = none then PyErr.indexError
         else PyErr.valueError) ∧
    ∀ out, makeExperimentMain constSeed constRand () ["make_experiment.py"] ≠ Except.ok out :=
  makeExperiment_arg_failure constSeed constRand () ["make_experiment.py"] (Or.inl rfl)

/-- C10: for every negative subject id the Schedule Generator aborts at
the seeding step with `ValueError` (the seed must be non-negative and
below `2^32`) before any file is written, so no schedule file is created;
subject id 0, although outside the stated positive-integer precondition,
is accepted and produces a schedule file. -/
theorem negative_subject_aborts_seed {σ : Type} (sf : Nat → σ) (rb : σ → Nat → Nat × σ) (g : σ)
    (argv : List String) (n : Int) (h1 : parseSubject argv = Except.ok n) (h2 : n < 0) :
    makeExperimentMain sf rb g argv = Except.error PyErr.valueError ∧
    (∀ out, makeExperimentMain sf rb g argv ≠ Except.ok out) ∧
    makeExperimentMain sf rb g ["make_experiment.py", "0"] =
      Except.ok (scheduleFileName 0, csvLines (npPermutation rb stimuli (sf 0))) := by
  have hseed : npSeed sf n = Except.error PyErr.valueError := by
    unfold npSeed
    rw [if_neg]
    intro hc
    exact absurd h2 (not_lt.mpr hc.1)
  refine ⟨?_, ?_, ?_⟩
  · simp [makeExperimentMain, h1, hseed]
  · intro out
    simp [makeExperimentMain, h1, hseed]
  · rfl

/-- Witness for C10 at a concrete input. -/
theorem negative_subject_aborts_seed_witness :
    makeExperimentMain constSeed constRand () ["make_experiment.py", "-1"] =
      Except.error PyErr.valueError ∧
    (∀ out,
      makeExperimentMain constSeed constRand () ["make_experiment.py", "-1"] ≠ Except.ok out) ∧
    makeExperimentMain constSeed constRand () ["make_experiment.py", "0"] =
      Except.ok (scheduleFileName 0, csvLines (npPermutation constRand stimuli (constSeed 0))) :=
  negative_subject_aborts_seed constSeed constRand () ["make_experiment.py", "-1"] (-1)
    rfl (by decide)

/-- C7: the wait-for-trigger loop exits exactly when a poll result
contains the key `equal`: it terminates on a poll stream iff some poll
contains `equal`, and when it exits at iteration `i`, poll `i` contains
`equal` while every earlier poll does not (all other keys are ignored,
and a stream without `equal` leaves the loop spinning — no timeout). -/
theorem waitForTrigger_spec (polls : List (List String)) :
    ((waitForTrigger polls).isSome ↔ ∃ ks ∈ polls, "equal" ∈ ks) ∧
    ∀ i, waitForTrigger polls = some i →
      ∃ ks, polls[i]? = some ks ∧ "equal" ∈ ks ∧
        ∀ j, j < i → ∀ ks2, polls[j]? = some ks2 → "equal" ∉ ks2 := by
  induction polls with
  | nil =>
    refine ⟨by simp [waitForTrigger], ?_⟩
    intro i hi
    simp [waitForTrigger] at hi
  | cons ks rest ih =>
    by_cases hc : "equal" ∈ ks
    · refine ⟨?_, ?_⟩
      · simp only [waitForTrigger, if_pos hc, Option.isSome_some, true_iff]
        exact ⟨ks, List.mem_cons_self ks rest, hc⟩
      · intro i hi
        simp only [waitForTrigger, if_pos hc, Option.some.injEq] at hi
        subst hi
        refine ⟨ks, by simp, hc, ?_⟩
        intro j hj
        exact absurd hj (Nat.not_lt_zero j)
    · refine ⟨?_, ?_⟩
      · have hmap : ∀ (o : Option Nat), (o.map (fun x => x + 1)).isSome = o.isSome := by
          intro o; cases o <;> simp
        simp only [waitForTrigger, if_neg hc, hmap]
        rw [ih.1]
        constructor
        · rintro ⟨ks2, h2, hm⟩
          exact ⟨ks2, List.mem_cons_of_mem ks h2, hm⟩
        · rintro ⟨ks2, h2, hm⟩
          rcases List.mem_cons.mp h2 with h2 | h2
          · subst h2; exact absurd hm hc
          · exact ⟨ks2, h2, hm⟩
      · intro i hi
        simp only [waitForTrigger, if_neg hc] at hi
        rw [Option.map_eq_some'] at hi
        obtain ⟨i', hi', hii⟩ := hi
        subst hii
        obtain ⟨ks2, hks2, hmem, hmin⟩ := ih.2 i' hi'
        refine ⟨ks2, by simpa using hks2, hmem, ?_⟩
        intro j hj ks3 hks3
        cases j with
        | zero =>
          simp only [List.getElem?_cons_zero, Option.some.injEq] at hks3
          subst hks3
          exact hc
        | succ j =>
          have hj' : j < i' := by omega
          exact hmin j hj' ks3 (by simpa using hks3)

/-- C8: when the Presentation Loop is invoked for a subject id whose
schedule file does not exist, it fails at the schedule read: the effect
trace stops at `pd.read_csv`, which in the source (line 9) precedes the
`visual.Window` creation (line 19), so no window is ever opened on this
failure path. -/
theorem missing_schedule_no_window (fs : String → Option (List (String × ℚ)))
    (subject : Int) (h : fs (scheduleFileName subject) = none) :
    (demoSetup fs subject).2 = none ∧
    (demoSetup fs subject).1 =
      [Effect.printMsg ("Running subject " ++ toString subject),
       Effect.readCsv (scheduleFileName subject)] ∧
    ∀ w ht, Effect.openWindow w ht ∉ (demoSetup fs subject).1 := by
  refine ⟨?_, ?_, ?_⟩ <;> simp [demoSetup, h]

/-- Witness for C8 at a concrete input. -/
theorem missing_schedule_no_window_witness :
    (demoSetup (fun _ => none) 3).2 = none ∧
    (demoSetup (fun _ => none) 3).1 =
      [Effect.printMsg ("Running subject " ++ toString (3 : Int)),
       Effect.readCsv (scheduleFileName 3)] ∧
    ∀ w ht, Effect.openWindow w ht ∉ (demoSetup (fun _ => none) 3).1 :=
  missing_schedule_no_window (fun _ => none) 3 rfl

/-- Past the last trial nothing is drawn. -/
theorem stepTrial_none {trials : List (String × ℚ)} {s : LoopState} (t : ℚ)
    (h : trials[s.idx]? = none) : stepTrial trials s t = (s, none) := by
  simp [stepTrial, h]

/-- Fixation-wait check before the onset: draw the fixation and stay. -/
theorem stepTrial_fix {trials : List (String × ℚ)} {s : LoopState} {lab : String} {o t : ℚ}
    (h : trials[s.idx]? = some (lab, o)) (hs : s.inStim = false) (ht : t < o) :
    stepTrial trials s t = (s, some (DrawEv.fix s.idx)) := by
  simp [stepTrial, h, hs, ht]

/-- Fixation-wait check at or past the onset: fall through, no draw. -/
theorem stepTrial_toStim {trials : List (String × ℚ)} {s : LoopState} {lab : String} {o t : ℚ}
    (h : trials[s.idx]? = some (lab, o)) (hs : s.inStim = false) (ht : o ≤ t) :
    stepTrial trials s t = (⟨s.idx, true⟩, none) := by
  simp [stepTrial, h, hs, not_lt.mpr ht]

/-- Stimulus-wait check inside the window: draw the label and stay. -/
theorem stepTrial_stim {trials : List (String × ℚ)} {s : LoopState} {lab : String} {o t : ℚ}
    (h : trials[s.idx]? = some (lab, o)) (hs : s.inStim = true)
    (ht : t < o + stimulusDuration) :
    stepTrial trials s t = (s, some (DrawEv.stim s.idx lab)) := by
  simp [stepTrial, h, hs, ht]

/-- Stimulus-wait check past the window: advance to the next trial. -/
theorem stepTrial_next {trials : List (String × ℚ)} {s : LoopState} {lab : String} {o t : ℚ}
    (h : trials[s.idx]? = some (lab, o)) (hs : s.inStim = true)
    (ht : o + stimulusDuration ≤ t) :
    stepTrial trials s t = (⟨s.idx + 1, false⟩, none) := by
  simp [stepTrial, h, hs, not_lt.mpr ht]

/-- Invariant of the trial loop: starting from a state whose past trials
all ended no later than the lower bound `t0` of the remaining clock
readings, every recorded draw satisfies the timing discipline `evSpec`. -/
theorem runTrials_sound (trials : List (String × ℚ)) :
    ∀ (ts : List ℚ) (s : LoopState) (t0 : ℚ),
      List.Chain (· ≤ ·) t0 ts →
      (∀ j o, j < s.idx → onsetAt trials j = some o → o + stimulusDuration ≤ t0) →
      (s.inStim = true → ∀ o, onsetAt trials s.idx = some o → o ≤ t0) →
      ∀ p ∈ runTrials trials s ts, evSpec trials p := by
  intro ts
  induction ts with
  | nil =>
    intro s t0 _ _ _ p hp
    simp [runTrials] at hp
  | cons t ts ih =>
    intro s t0 hchain hlow hstim p hp
    rw [List.chain_cons] at hchain
    obtain ⟨ht0, hchain'⟩ := hchain
    have hlow' : ∀ j o, j < s.idx → onsetAt trials j = some o →
        o + stimulusDuration ≤ t :=
      fun j o hj ho => le_trans (hlow j o hj ho) ht0
    rcases hget : trials[s.idx]? with _ | ⟨lab, o⟩
    · simp only [runTrials, stepTrial_none t hget] at hp
      exact ih s t hchain' hlow'
        (fun hx o ho => le_trans (hstim hx o ho) ht0) p hp
    · have honset : onsetAt trials s.idx = some o := by simp [onsetAt, hget]
      have hlabel : labelAt trials s.idx = some lab := by simp [labelAt, hget]
      cases hsi : s.inStim with
      | false =>
        by_cases hto : t < o
        · simp only [runTrials, stepTrial_fix hget hsi hto] at hp
          rcases List.mem_cons.mp hp with hp | hp
          · subst hp
            refine ⟨?_, ?_, ?_⟩
            · intro i hei
              simp only at hei
              cases hei
              exact ⟨o, honset, hto⟩
            · intro i lab' hei
              simp at hei
            · intro j o' hj ho'
              simp only [trialOf] at hj
              exact hlow' j o' hj ho'
          · exact ih s t hchain' hlow'
              (fun hx => absurd (hsi ▸ hx) (by simp)) p hp
        · simp only [runTrials, stepTrial_toStim hget hsi (not_lt.mp hto)] at hp
          refine ih ⟨s.idx, true⟩ t hchain' hlow' ?_ p hp
          intro _ o' ho'
          have ho'2 : onsetAt trials s.idx = some o' := ho'
          rw [honset] at ho'2
          rw [(Option.some.inj ho'2).symm]
          exact not_lt.mp hto
      | true =>
        by_cases hto : t < o + stimulusDuration
        · simp only [runTrials, stepTrial_stim hget hsi hto] at hp
          rcases List.mem_cons.mp hp with hp | hp
          · subst hp
            refine ⟨?_, ?_, ?_⟩
            · intro i hei
              simp at hei
            · intro i lab' hei
              simp only [DrawEv.stim.injEq] at hei
              obtain ⟨hei1, hei2⟩ := hei
              subst hei1; subst hei2
              exact ⟨o, honset, le_trans (hstim hsi o honset) ht0, hto, hlabel⟩
            · intro j o' hj ho'
              simp only [trialOf] at hj
              exact hlow' j o' hj ho'
          · exact ih s t hchain' hlow'
              (fun hx o' ho' => le_trans (hstim hx o' ho') ht0) p hp
        · simp only [runTrials, stepTrial_next hget hsi (not_lt.mp hto)] at hp
          refine ih ⟨s.idx + 1, false⟩ t hchain' ?_ (fun hx => by simp at hx) p hp
          intro j o' hj ho'
          rcases Nat.lt_succ_iff_lt_or_eq.mp hj with hj | hj
          · exact hlow' j o' hj ho'
          · subst hj
            rw [honset] at ho'
            rw [(Option.some.inj ho').symm]
            exact not_lt.mp hto

/-- The trial index never decreases: every draw recorded from a state
belongs to that state's trial or a later one. -/
theorem runTrials_idx_le (trials : List (String × ℚ)) :
    ∀ (ts : List ℚ) (s : LoopState), ∀ p ∈ runTrials trials s ts, s.idx ≤ trialOf p.2 := by
  intro ts
  induction ts with
  | nil =>
    intro s p hp
    simp [runTrials] at hp
  | cons t ts ih =>
    intro s p hp
    rcases hget : trials[s.idx]? with _ | ⟨lab, o⟩
    · simp only [runTrials, stepTrial_none t hget] at hp
      exact ih s p hp
    · cases hsi : s.inStim with
      | false =>
        by_cases hto : t < o
        · simp only [runTrials, stepTrial_fix hget hsi hto] at hp
          rcases List.mem_cons.mp hp with hp | hp
          · subst hp; exact Nat.le_refl _
          · exact ih s p hp
        · simp only [runTrials, stepTrial_toStim hget hsi (not_lt.mp hto)] at hp
          exact ih ⟨s.idx, true⟩ p hp
      | true =>
        by_cases hto : t < o + stimulusDuration
        · simp only [runTrials, stepTrial_stim hget hsi hto] at hp
          rcases List.mem_cons.mp hp with hp | hp
          · subst hp; exact Nat.le_refl _
          · exact ih s p hp
        · simp only [runTrials, stepTrial_next hget hsi (not_lt.mp hto)] at hp
          exact le_trans (Nat.le_succ _) (ih ⟨s.idx + 1, false⟩ p hp)

/-- C6: over any nondecreasing sequence of elapsed-clock readings starting
from the trigger (time 0), every draw the trial loop performs obeys
`evSpec`: trial `i`'s stimulus text is never rendered before elapsed time
reaches `onset_i`, once rendering it the loop does not move on until
elapsed time reaches at least `onset_i + 1.5`, and before `onset_i` the
loop renders only the fixation marker — which it does render at every
check while the fixation wait is active, and likewise the stimulus at
every check while the stimulus wait is active. -/
theorem presentation_timing (trials : List (String × ℚ)) (samples : List ℚ)
    (hmono : List.Chain (· ≤ ·) 0 samples) :
    (∀ p ∈ runTrials trials initState samples, evSpec trials p) ∧
    (∀ (s : LoopState) (lab : String) (o t : ℚ), trials[s.idx]? = some (lab, o) →
      s.inStim = false → t < o → stepTrial trials s t = (s, some (DrawEv.fix s.idx))) ∧
    (∀ (s : LoopState) (lab : String) (o t : ℚ), trials[s.idx]? = some (lab, o) →
      s.inStim = true → t < o + stimulusDuration →
      stepTrial trials s t = (s, some (DrawEv.stim s.idx lab))) := by
  refine ⟨?_, fun s lab o t h hs ht => stepTrial_fix h hs ht,
    fun s lab o t h hs ht => stepTrial_stim h hs ht⟩
  exact runTrials_sound trials samples initState 0 hmono
    (fun j o hj _ => absurd hj (Nat.not_lt_zero j)) (fun hx => by simp [initState] at hx)

/-- Witness for C6 at a concrete schedule and clock-reading sequence. -/
theorem presentation_timing_witness :
    (∀ p ∈ runTrials [("Sam", 4), ("Kirsten", 8), ("Ari", 10)] initState
        [0, 3, 5, 9, 10, 12], evSpec [("Sam", 4), ("Kirsten", 8), ("Ari", 10)] p) ∧
    (∀ (s : LoopState) (lab : String) (o t : ℚ),
      ([("Sam", 4), ("Kirsten", 8), ("Ari", 10)] : List (String × ℚ))[s.idx]? = some (lab, o) →
      s.inStim = false → t < o →
      stepTrial [("Sam", 4), ("Kirsten", 8), ("Ari", 10)] s t = (s, some (DrawEv.fix s.idx))) ∧
    (∀ (s : LoopState) (lab : String) (o t : ℚ),
      ([("Sam", 4), ("Kirsten", 8), ("Ari", 10)] : List (String × ℚ))[s.idx]? = some (lab, o) →
      s.inStim = true → t < o + stimulusDuration →
      stepTrial [("Sam", 4), ("Kirsten", 8), ("Ari", 10)] s t =
        (s, some (DrawEv.stim s.idx lab))) :=
  presentation_timing [("Sam", 4), ("Kirsten", 8), ("Ari", 10)] [0, 3, 5, 9, 10, 12]
    (by norm_num [List.chain_cons])

/-- C9: when trial `i` is reached at an elapsed time already at least
`onset_i + 1.5` (and the clock does not go backwards), both of its wait
loops run zero iterations: the run consumes exactly the two condition
checks and equals the run of the remaining trials, and no draw of the
whole remaining run — in particular no rendering of trial `i`'s label —
belongs to trial `i`. There is no minimum display guarantee per trial. -/
theorem trial_skipped_when_late (trials : List (String × ℚ)) (i : Nat) (lab : String)
    (o : ℚ) (t t' : ℚ) (ts : List ℚ) (hget : trials[i]? = some (lab, o))
    (h1 : o + stimulusDuration ≤ t) (h2 : t ≤ t') :
    runTrials trials ⟨i, false⟩ (t :: t' :: ts) = runTrials trials ⟨i + 1, false⟩ ts ∧
    ∀ p ∈ runTrials trials ⟨i, false⟩ (t :: t' :: ts), i < trialOf p.2 := by
  have hot : o ≤ t :=
    le_trans (le_add_of_nonneg_right (by norm_num [stimulusDuration])) h1
  have hs1 : stepTrial trials ⟨i, false⟩ t = (⟨i, true⟩, none) :=
    stepTrial_toStim hget rfl hot
  have hs2 : stepTrial trials ⟨i, true⟩ t' = (⟨i + 1, false⟩, none) :=
    stepTrial_next hget rfl (le_trans h1 h2)
  have hrun : runTrials trials ⟨i, false⟩ (t :: t' :: ts) =
      runTrials trials ⟨i + 1, false⟩ ts := by
    simp only [runTrials, hs1, hs2]
  refine ⟨hrun, ?_⟩
  intro p hp
  rw [hrun] at hp
  exact runTrials_idx_le trials ts ⟨i + 1, false⟩ p hp

/-- Witness for C9 at a concrete schedule and clock-reading sequence. -/
theorem trial_skipped_when_late_witness :
    runTrials [("Sam", 4), ("Kirsten", 8), ("Ari", 10)] ⟨0, false⟩
        ((6 : ℚ) :: (7 : ℚ) :: [8, 12]) =
      runTrials [("Sam", 4), ("Kirsten", 8), ("Ari", 10)] ⟨0 + 1, false⟩ [8, 12] ∧
    ∀ p ∈ runTrials [("Sam", 4), ("Kirsten", 8), ("Ari", 10)] ⟨0, false⟩
        ((6 : ℚ) :: (7 : ℚ) :: [8, 12]), 0 < trialOf p.2 :=
  trial_skipped_when_late [("Sam", 4), ("Kirsten", 8), ("Ari", 10)] 0 "Sam" 4 6 7 [8, 12]
    (by decide) (by norm_num [stimulusDuration]) (by norm_num)
